import Mathlib

/-!
# Verification of the VirtualSensors protocol library

A shallow embedding of the VirtualSensors_protocol repository
(`libraries/vscp` and `libraries/expt`) together with proofs about it.

Strings are modelled as `List Char`; C++ `std::string` values are finite
character sequences, so this is faithful.

The repository ships `protocol.hpp` (declarations of `Protocol::parseMessage`,
`Protocol::buildMessage` and the six operations) but the corresponding
`protocol.cpp` implementation is not part of the source tree.  Definitions for
those functions are therefore modelled from the specification (§4.1 Message
Codec, §4.3 Protocol Engine) and are marked `Modelled from the spec:` in their
doc comments.  `io/messenger.cpp` and the `expt` exception library are present
in the source tree and are embedded directly from the code.
-/

/-- Convert a string literal to the `List Char` representation used throughout. -/
def toL (s : String) : List Char := s.toList

/-- A parameter map: ordered association list from key to value.
Modelled from the spec: "**ParameterMap**: ordered mapping from key (string)
to value (string); insertion order preserved for deterministic
re-serialization; keys unique." -/
abbrev ParamMap := List (List Char × List Char)

/-- `MAX_PROTOCOL_REQUEST_SIZE` from `vscp/src/config.hpp`: maximum size of a
protocol request message (1024). -/
def MAX_PROTOCOL_REQUEST_SIZE : Nat := 1024

/-- `CASE_SENSITIVE` from `vscp/src/config.hpp`. -/
def CASE_SENSITIVE : Bool := true

/-- Split a character list on every occurrence of the separator `c`.
Mirrors splitting a string on `'&'`: the result always has one more entry
than the number of separators; adjacent separators yield empty entries. -/
def splitOnChar (c : Char) : List Char → List (List Char)
  | [] => [[]]
  | x :: xs =>
    let rest := splitOnChar c xs
    if x = c then [] :: rest
    else
      match rest with
      | [] => [[x]]
      | t :: ts => (x :: t) :: ts

/-- Join tokens with the `'&'` separator (inverse of `splitOnChar '&'` on
separator-free tokens). -/
def joinTokens : List (List Char) → List Char
  | [] => []
  | [t] => t
  | t :: u :: ts => t ++ '&' :: joinTokens (u :: ts)

/-- Split a token on the first `'='`: the part before it is the key, the part
after it the value.  A token with no `'='` is a key with an empty value. -/
def splitEq : List Char → List Char × List Char
  | [] => ([], [])
  | x :: xs =>
    if x = '=' then ([], xs)
    else
      let p := splitEq xs
      (x :: p.1, p.2)

/-- Insert a key/value pair into a parameter map: if the key is already
present its value is overwritten in place (last-write-wins, first-seen
position kept), otherwise the pair is appended at the end. -/
def insertParam (m : ParamMap) (k v : List Char) : ParamMap :=
  if m.any (fun p => p.1 == k) then
    m.map (fun p => if p.1 == k then (k, v) else p)
  else
    m ++ [(k, v)]

/-- Strip one leading `'?'` framing marker if present. -/
def stripQuestion : List Char → List Char
  | '?' :: rest => rest
  | m => m

/-- The non-empty `'&'`-separated tokens of a wire message (after stripping
the leading `'?'`); empty tokens from `&&` or a trailing `&` are skipped. -/
def tokensOf (message : List Char) : List (List Char) :=
  (splitOnChar '&' (stripQuestion message)).filter (fun t => !t.isEmpty)

/-- Key normalization: identity when case-sensitive, lowercase otherwise. -/
def normKey (caseSensitive : Bool) (k : List Char) : List Char :=
  if caseSensitive then k else k.map Char.toLower

/-- Modelled from the spec: `Protocol::parseMessage` (declared in
`vscp/src/protocol.hpp`, implementation not in the source tree), following
§4.1: strip one leading `'?'`; split on `'&'`, skipping empty tokens; split
each token on the first `'='` (no `'='` means empty value); normalize the key
to lowercase when not case-sensitive; insert with last-write-wins
overwriting, preserving first-seen key order. -/
def parseMessage (message : List Char) (caseSensitive : Bool) : ParamMap :=
  (tokensOf message).foldl
    (fun m t => insertParam m (normKey caseSensitive (splitEq t).1) (splitEq t).2)
    []

/-- The serialized form of a parameter map: `?k1=v1&k2=v2&...` in iteration
order. -/
def buildMessageStr (m : ParamMap) : List Char :=
  '?' :: joinTokens (m.map (fun p => p.1 ++ '=' :: p.2))

/-- Error categories of the protocol engine.  Modelled from the spec (§7
error taxonomy). -/
inductive ErrorCategory where
  | InvalidValue
  | NotFound
  | NotInitialized
  | IOError
  | Timeout
  | MethodFailed
  | EncodingError
  | NotDefined
deriving DecidableEq

/-- Modelled from the spec: `Protocol::buildMessage` (declared in
`vscp/src/protocol.hpp`, implementation not in the source tree), following
§4.1: serializes in iteration order as `key=value` joined by `'&'`, prefixed
with `'?'`; fails with `EncodingError` if the built string would exceed
`MAX_REQUEST_SIZE`. -/
def buildMessage (m : ParamMap) : Except ErrorCategory (List Char) :=
  let s := buildMessageStr m
  if MAX_PROTOCOL_REQUEST_SIZE < s.length then .error .EncodingError
  else .ok s

/-- A key or value is reserved-character-free when it contains neither `'&'`
nor `'='` nor a newline. -/
def reservedFree (s : List Char) : Prop :=
  '&' ∉ s ∧ '=' ∉ s ∧ '\n' ∉ s

instance (s : List Char) : Decidable (reservedFree s) := by
  unfold reservedFree; infer_instance

/-! ### Lemmas about the codec primitives -/

theorem splitOnChar_ne_nil (c : Char) (l : List Char) : splitOnChar c l ≠ [] := by
  induction l with
  | nil => simp [splitOnChar]
  | cons x xs ih =>
    simp only [splitOnChar]
    split
    · simp
    · cases h : splitOnChar c xs with
      | nil => simp
      | cons t ts => simp

theorem splitOnChar_of_not_mem (c : Char) (l : List Char) (h : c ∉ l) :
    splitOnChar c l = [l] := by
  induction l with
  | nil => rfl
  | cons x xs ih =>
    simp only [List.mem_cons, not_or] at h
    simp only [splitOnChar]
    rw [if_neg (by intro hcx; exact h.1 hcx.symm), ih h.2]

theorem splitOnChar_append (c : Char) (l r : List Char) (h : c ∉ l) :
    splitOnChar c (l ++ c :: r) = l :: splitOnChar c r := by
  induction l with
  | nil => simp [splitOnChar]
  | cons x xs ih =>
    simp only [List.mem_cons, not_or] at h
    simp only [List.cons_append, splitOnChar]
    rw [if_neg (by intro hcx; exact h.1 hcx.symm)]
    simp only [List.append_eq]
    rw [ih h.2]

theorem splitOnChar_joinTokens (ts : List (List Char)) (hne : ts ≠ [])
    (hfree : ∀ t ∈ ts, '&' ∉ t) :
    splitOnChar '&' (joinTokens ts) = ts := by
  induction ts with
  | nil => exact absurd rfl hne
  | cons t us ih =>
    cases us with
    | nil =>
      simp only [joinTokens]
      exact splitOnChar_of_not_mem '&' t (hfree t (by simp))
    | cons u vs =>
      simp only [joinTokens]
      rw [splitOnChar_append '&' t _ (hfree t (by simp))]
      rw [ih (by simp) (fun x hx => hfree x (List.mem_cons_of_mem t hx))]

theorem splitEq_append (k v : List Char) (h : '=' ∉ k) :
    splitEq (k ++ '=' :: v) = (k, v) := by
  induction k with
  | nil => simp [splitEq]
  | cons x xs ih =>
    simp only [List.mem_cons, not_or] at h
    simp only [List.cons_append, splitEq]
    rw [if_neg (by intro hx; exact h.1 hx.symm)]
    simp only [List.append_eq]
    rw [ih h.2]

theorem tokensOf_build (m : ParamMap) (hne : m ≠ [])
    (hfree : ∀ p ∈ m, '&' ∉ p.1 ∧ '&' ∉ p.2) :
    tokensOf (buildMessageStr m) = m.map (fun p => p.1 ++ '=' :: p.2) := by
  unfold tokensOf buildMessageStr
  have hstrip : stripQuestion ('?' :: joinTokens (m.map (fun p => p.1 ++ '=' :: p.2)))
      = joinTokens (m.map (fun p => p.1 ++ '=' :: p.2)) := rfl
  rw [hstrip]
  rw [splitOnChar_joinTokens]
  · apply List.filter_eq_self.mpr
    intro t ht
    rcases List.mem_map.mp ht with ⟨p, _, rfl⟩
    simp
  · intro h
    exact hne (List.map_eq_nil_iff.mp h)
  · intro t ht
    rcases List.mem_map.mp ht with ⟨p, hp, rfl⟩
    intro hmem
    rcases List.mem_append.mp hmem with h1 | h2
    · exact (hfree p hp).1 h1
    · rcases List.mem_cons.mp h2 with h3 | h4
      · exact absurd h3 (by decide)
      · exact (hfree p hp).2 h4

theorem fold_insert_tokens (l : ParamMap) :
    ∀ acc : ParamMap,
    (∀ p ∈ l, '=' ∉ p.1) →
    (l.map Prod.fst).Nodup →
    (∀ p ∈ l, acc.any (fun q => q.1 == p.1) = false) →
    (l.map (fun p => p.1 ++ '=' :: p.2)).foldl
      (fun a t => insertParam a (normKey true (splitEq t).1) (splitEq t).2) acc
      = acc ++ l := by
  induction l with
  | nil => intro acc _ _ _; simp
  | cons p ps ih =>
    intro acc hkeq hnodup hacc
    simp only [List.map_cons, List.foldl_cons]
    have hsp : splitEq (p.1 ++ '=' :: p.2) = (p.1, p.2) :=
      splitEq_append p.1 p.2 (hkeq p (by simp))
    rw [hsp]
    have hstep : insertParam acc (normKey true (p.1, p.2).1) (p.1, p.2).2 = acc ++ [p] := by
      show insertParam acc p.1 p.2 = acc ++ [p]
      unfold insertParam
      rw [if_neg (by rw [hacc p (by simp)]; simp)]
    rw [hstep]
    rw [List.map_cons, List.nodup_cons] at hnodup
    have haccp : ∀ q ∈ ps, ((acc ++ [p]).any (fun r => r.1 == q.1)) = false := by
      intro q hq
      rw [List.any_append, hacc q (List.mem_cons_of_mem p hq)]
      simp only [List.any_cons, List.any_nil, Bool.false_or, Bool.or_false]
      rw [beq_eq_false_iff_ne]
      intro hpq
      exact hnodup.1 (by rw [hpq]; exact List.mem_map_of_mem Prod.fst hq)
    rw [ih (acc ++ [p]) (fun q hq => hkeq q (List.mem_cons_of_mem p hq)) hnodup.2 haccp]
    simp

/-- C1: for every parameter map `m` whose keys are non-empty and unique and
whose keys and values contain neither `'&'` nor `'='` nor newline, parsing
the serialization of `m` in case-sensitive mode yields `m` again:
`parseMessage (buildMessageStr m) true = m`.  (`buildMessageStr` is the
string `buildMessage` returns when it succeeds.) -/
theorem parse_build_roundtrip (m : ParamMap)
    (hkeys : ∀ p ∈ m, p.1 ≠ [])
    (hnodup : (m.map Prod.fst).Nodup)
    (hfree : ∀ p ∈ m, reservedFree p.1 ∧ reservedFree p.2) :
    parseMessage (buildMessageStr m) true = m := by
  rcases m with _ | ⟨p, ps⟩
  · rfl
  · unfold parseMessage
    rw [tokensOf_build _ (by simp)
      (fun q hq => ⟨((hfree q hq).1).1, ((hfree q hq).2).1⟩)]
    rw [fold_insert_tokens _ []
      (fun q hq => ((hfree q hq).1).2.1) hnodup (fun q _ => rfl)]
    simp

/-- Witness for C1 at a concrete two-entry map. -/
theorem parse_build_roundtrip_witness :
    (∀ p ∈ [(toL "type", toL "INIT"), (toL "app", toL "Demo")], p.1 ≠ []) ∧
    (([(toL "type", toL "INIT"), (toL "app", toL "Demo")].map Prod.fst).Nodup) ∧
    (∀ p ∈ [(toL "type", toL "INIT"), (toL "app", toL "Demo")],
      reservedFree p.1 ∧ reservedFree p.2) ∧
    parseMessage (buildMessageStr [(toL "type", toL "INIT"), (toL "app", toL "Demo")]) true
      = [(toL "type", toL "INIT"), (toL "app", toL "Demo")] :=
  ⟨by decide, by decide, by decide,
    parse_build_roundtrip _ (by decide) (by decide) (by decide)⟩

/-- The first-seen-order deduplication of a key sequence: keeps the first
occurrence of every key, in order of first appearance.  States the spec's
"insertion order preserved, keys unique" contract. -/
def firstSeen : List (List Char) → List (List Char)
  | [] => []
  | k :: ks => k :: (firstSeen ks).filter (fun j => !(j == k))

/-- One step of the key-order evolution of `insertParam`: an already-present
key leaves the key sequence unchanged, a fresh key is appended. -/
def dedupAppend (ks : List (List Char)) (k : List Char) : List (List Char) :=
  if ks.any (fun j => j == k) then ks else ks ++ [k]

theorem any_map_key (m : ParamMap) (k : List Char) :
    ((m.map Prod.fst).any fun j => j == k) = (m.any fun p => p.1 == k) := by
  induction m with
  | nil => rfl
  | cons p ps ih => simp only [List.map_cons, List.any_cons, ih]

theorem insertParam_keys (m : ParamMap) (k v : List Char) :
    (insertParam m k v).map Prod.fst = dedupAppend (m.map Prod.fst) k := by
  unfold insertParam dedupAppend
  rw [any_map_key]
  split
  · rw [List.map_map]
    apply List.map_congr_left
    intro p _
    show Prod.fst (if p.1 == k then (k, v) else p) = p.1
    by_cases h : p.1 = k
    · rw [if_pos (by simp [h])]
      exact h.symm
    · rw [if_neg (by simp [h])]
  · simp

theorem parse_fold_keys (ts : List (List Char)) (cs : Bool) :
    ∀ acc : ParamMap,
    ((ts.foldl
        (fun a t => insertParam a (normKey cs (splitEq t).1) (splitEq t).2)
        acc).map Prod.fst)
      = ts.foldl (fun ks t => dedupAppend ks (normKey cs (splitEq t).1))
          (acc.map Prod.fst) := by
  induction ts with
  | nil => intro acc; rfl
  | cons t ts ih =>
    intro acc
    simp only [List.foldl_cons]
    rw [ih, insertParam_keys]

theorem dedupAppend_foldl (ks : List (List Char)) :
    ∀ acc : List (List Char),
    ks.foldl dedupAppend acc
      = acc ++ (firstSeen ks).filter (fun j => !acc.any (fun a => a == j)) := by
  induction ks with
  | nil => intro acc; simp [firstSeen]
  | cons k ks ih =>
    intro acc
    simp only [List.foldl_cons, firstSeen]
    cases hmem : acc.any (fun j => j == k) with
    | true =>
      have hd : dedupAppend acc k = acc := by
        unfold dedupAppend; rw [if_pos hmem]
      rw [hd, ih acc, List.filter_cons]
      rw [if_neg (by rw [hmem]; simp)]
      rw [List.filter_filter]
      congr 1
      apply List.filter_congr
      intro j _
      by_cases hj : (acc.any fun a => a == j) = true
      · simp [hj]
      · have hjk : ¬(j = k) := by
          intro hje
          apply hj
          subst hje
          exact hmem
        simp [hj, hjk]
    | false =>
      have hd : dedupAppend acc k = acc ++ [k] := by
        unfold dedupAppend; rw [if_neg (by rw [hmem]; simp)]
      rw [hd, ih (acc ++ [k]), List.filter_cons]
      rw [if_pos (by rw [hmem]; rfl)]
      rw [List.filter_filter, List.append_assoc, List.singleton_append]
      congr 2
      apply List.filter_congr
      intro j _
      rw [List.any_append]
      simp only [List.any_cons, List.any_nil, Bool.or_false]
      by_cases hj : (acc.any fun a => a == j) = true
      · simp [hj]
      · by_cases hjk : j = k
        · subst hjk
          simp [hj]
        · have hkj : ¬(k = j) := fun h => hjk h.symm
          simp [hj, hjk, hkj]

theorem parse_keys (msg : List Char) (cs : Bool) :
    (parseMessage msg cs).map Prod.fst
      = firstSeen ((tokensOf msg).map (fun t => normKey cs (splitEq t).1)) := by
  unfold parseMessage
  rw [parse_fold_keys]
  rw [← List.foldl_map (fun t => normKey cs (splitEq t).1) dedupAppend]
  rw [dedupAppend_foldl]
  simp

theorem firstSeen_nodup (ks : List (List Char)) : (firstSeen ks).Nodup := by
  induction ks with
  | nil => exact List.nodup_nil
  | cons k ks ih =>
    simp only [firstSeen, List.nodup_cons]
    constructor
    · intro hmem
      rcases List.mem_filter.mp hmem with ⟨_, hne⟩
      simp at hne
    · exact ih.filter _

/-- C5: for every wire string, the parameter map produced by `parseMessage`
preserves the first-seen key order of its entries (overwritten keys keep
their first-seen position), and the map has unique keys: its key sequence is
exactly the first-seen-order deduplication of the normalized token keys, and
it is duplicate-free. -/
theorem parse_preserves_first_seen_order (msg : List Char) (cs : Bool) :
    (parseMessage msg cs).map Prod.fst
        = firstSeen ((tokensOf msg).map (fun t => normKey cs (splitEq t).1)) ∧
    ((parseMessage msg cs).map Prod.fst).Nodup := by
  refine ⟨parse_keys msg cs, ?_⟩
  rw [parse_keys msg cs]
  exact firstSeen_nodup _

/-- C6: with `case_sensitive = false` every key is normalized to lowercase
before insertion (the key sequence is the first-seen deduplication of the
lowercased token keys) and a later duplicate overwrites an earlier one; in
particular parsing `?A=1&a=2` yields exactly the map `[("a", "2")]`. -/
theorem parse_case_insensitive_lowercase_lww :
    (∀ msg : List Char,
      (parseMessage msg false).map Prod.fst
        = firstSeen ((tokensOf msg).map (fun t => (splitEq t).1.map Char.toLower))) ∧
    parseMessage (toL "?A=1&a=2") false = [(toL "a", toL "2")] := by
  constructor
  · intro msg
    have h := parse_keys msg false
    simpa [normKey] using h
  · decide

/-- C7: for every parameter map whose serialized form exceeds
`MAX_PROTOCOL_REQUEST_SIZE` (1024), `buildMessage` fails with
`EncodingError` instead of producing the over-long wire message. -/
theorem build_oversize_encoding_error (m : ParamMap)
    (h : MAX_PROTOCOL_REQUEST_SIZE < (buildMessageStr m).length) :
    buildMessage m = Except.error ErrorCategory.EncodingError := by
  unfold buildMessage
  rw [if_pos h]

/-- Witness for C7: a single 1030-character key already makes the serialized
form 1032 characters long. -/
theorem build_oversize_encoding_error_witness :
    MAX_PROTOCOL_REQUEST_SIZE
        < (buildMessageStr [(List.replicate 1030 'a', [])]).length ∧
    buildMessage [(List.replicate 1030 'a', [])]
        = Except.error ErrorCategory.EncodingError := by
  have hform : buildMessageStr [(List.replicate 1030 'a', [])]
      = '?' :: (List.replicate 1030 'a' ++ ['=']) := rfl
  have hlen : (buildMessageStr [(List.replicate 1030 'a', [])]).length = 1032 := by
    rw [hform, List.length_cons, List.length_append, List.length_replicate,
      List.length_singleton]
  refine ⟨?_, ?_⟩
  · rw [hlen]; norm_num [MAX_PROTOCOL_REQUEST_SIZE]
  · exact build_oversize_encoding_error _ (by rw [hlen]; norm_num [MAX_PROTOCOL_REQUEST_SIZE])

/-! ### Protocol engine (spec-modelled)

The six operation bodies of `Protocol` are declared in
`vscp/src/protocol.hpp` but their implementation file is not in the source
tree; the engine below is modelled from the spec (§4.3 Protocol Engine,
§7 Error Handling Design). -/

/-- Transport-level failures.  Modelled from the spec:
`receive` distinguishes a timeout from other channel failures (§4.2). -/
inductive TransportError where
  | Timeout
  | Other (message : List Char)

/-- The transport interface consumed by the engine.  Modelled from the spec:
`send(message) → Result<(), TransportError>` and
`receive(timeout) → Result<string, TransportError>` (§4.2). -/
structure Transport where
  send : List Char → Except TransportError Unit
  receive : Nat → Except TransportError (List Char)

/-- A protocol error value.  Modelled from the spec: `ProtocolError:
{category, message, origin, cause: Option<owned ProtocolError>}` (§3). -/
inductive ProtocolError where
  | mk (category : ErrorCategory) (message : List Char) (origin : List Char)
      (cause : Option ProtocolError)

/-- The category carried by a protocol error. -/
def ProtocolError.category : ProtocolError → ErrorCategory
  | .mk c _ _ _ => c

/-- The five non-init, UID-scoped operations of the protocol engine with
their inputs (`update`, `config`, `reset`, `connect`, `disconnect`). -/
inductive Operation where
  | update (uid : List Char)
  | config (uid : List Char) (cfg : ParamMap)
  | reset (uid : List Char)
  | connect (uid : List Char) (pins : List Char)
  | disconnect (uid : List Char)

/-- The sensor UID an operation is scoped to. -/
def Operation.uid : Operation → List Char
  | .update u => u
  | .config u _ => u
  | .reset u => u
  | .connect u _ => u
  | .disconnect u => u

/-- The request parameter map of an operation, per the operation catalogue
(spec §4.3): `type=...&id=UID` plus the operation-specific payload. -/
def Operation.requestParams : Operation → ParamMap
  | .update u => [(toL "type", toL "UPDATE"), (toL "id", u)]
  | .config u cfg => (toL "type", toL "CONFIG") :: (toL "id", u) :: cfg
  | .reset u => [(toL "type", toL "RESET"), (toL "id", u)]
  | .connect u pins => [(toL "type", toL "CONNECT"), (toL "id", u), (toL "pins", pins)]
  | .disconnect u => [(toL "type", toL "DISCONNECT"), (toL "id", u)]

/-- Local input validation (spec §4.3 step 1): non-empty UID for every
operation, non-empty pin list for `connect`. -/
def Operation.valid : Operation → Bool
  | .connect u pins => !u.isEmpty && !pins.isEmpty
  | op => !op.uid.isEmpty

/-- Look a key up in a parameter map (first match). -/
def lookupParam (m : ParamMap) (k : List Char) : Option (List Char) :=
  match m.find? (fun p => p.1 == k) with
  | some p => some p.2
  | none => none

/-- Wrap a transport error as a protocol-error cause. -/
def transportCause : TransportError → ProtocolError
  | .Timeout => .mk .Timeout (toL "Transport timeout") (toL "Transport") none
  | .Other m => .mk .NotDefined m (toL "Transport") none

/-- The failure message of a remote `status=0` reply: the reply's `error`
field when present. -/
def remoteErrorMessage (params : ParamMap) : List Char :=
  match lookupParam params (toL "error") with
  | some e => e
  | none => toL "Remote reported failure"

/-- Modelled from the spec: one protocol-engine operation call (§4.3).  The
skeleton is: (1) the `Initialized` state guard — when not initialized the
call fails with category `NotInitialized` without touching the transport;
(2) local input validation (`InvalidValue`); (3) build the request via the
codec (`EncodingError` on oversize); (4) `transport.send` (`IOError` on
failure); (5) `transport.receive` with the per-message timeout (`Timeout` /
`IOError`); (6) parse the reply, verify `status` is present and that the
reply's `id` equals the request's `id` — a mismatch fails with
`MethodFailed` regardless of the status value; (7) `status=1` succeeds with
the remaining parameters, `status=0` fails with `MethodFailed`.  The second
component of the result is the list of messages handed to the transport's
`send` during the call. -/
def performOperation (initialized : Bool) (tr : Transport) (timeout : Nat)
    (op : Operation) : Except ProtocolError ParamMap × List (List Char) :=
  if !initialized then
    (.error (.mk .NotInitialized (toL "Protocol not initialized") (toL "Protocol") none), [])
  else if !op.valid then
    (.error (.mk .InvalidValue (toL "Invalid input value") (toL "Protocol") none), [])
  else
    match buildMessage op.requestParams with
    | .error _ =>
      (.error (.mk .EncodingError (toL "Request exceeds maximum size") (toL "Protocol") none), [])
    | .ok req =>
      match tr.send req with
      | .error e =>
        (.error (.mk .IOError (toL "Transport send failed") (toL "Protocol")
          (some (transportCause e))), [req])
      | .ok _ =>
        match tr.receive timeout with
        | .error .Timeout =>
          (.error (.mk .Timeout (toL "No reply within budget") (toL "Protocol") none), [req])
        | .error (.Other m) =>
          (.error (.mk .IOError m (toL "Protocol") none), [req])
        | .ok reply =>
          match lookupParam (parseMessage reply CASE_SENSITIVE) (toL "status") with
          | none =>
            (.error (.mk .EncodingError (toL "Missing status field") (toL "Protocol") none), [req])
          | some st =>
            if lookupParam (parseMessage reply CASE_SENSITIVE) (toL "id") ≠ some op.uid then
              (.error (.mk .MethodFailed (toL "Reply id mismatch") (toL "Protocol") none), [req])
            else if st == toL "1" then
              (.ok ((parseMessage reply CASE_SENSITIVE).filter
                (fun p => !(p.1 == toL "id") && !(p.1 == toL "status"))), [req])
            else
              (.error (.mk .MethodFailed (remoteErrorMessage (parseMessage reply CASE_SENSITIVE))
                (toL "Protocol") none), [req])

/-- The error category of an operation result, if it failed. -/
def resultCategory : Except ProtocolError ParamMap → Option ErrorCategory
  | .error e => some e.category
  | .ok _ => none

/-- C3: every non-init operation (`update`, `config`, `reset`, `connect`,
`disconnect`) invoked while the engine is not initialized fails with
category `NotInitialized`, and nothing is handed to the transport's `send`
during the call. -/
theorem uninitialized_fails_without_transport (tr : Transport) (timeout : Nat)
    (op : Operation) :
    resultCategory (performOperation false tr timeout op).1
        = some ErrorCategory.NotInitialized ∧
    (performOperation false tr timeout op).2 = [] :=
  ⟨rfl, rfl⟩

/-- C4: for every UID-scoped operation, if the parsed reply carries a
`status` field and its `id` value differs from the request's UID, the
operation fails with category `MethodFailed` — for every value of the
reply's status field, including `status=1`. -/
theorem reply_id_mismatch_method_failed (tr : Transport) (timeout : Nat)
    (op : Operation) (req reply idv st : List Char)
    (hvalid : op.valid = true)
    (hbuild : buildMessage op.requestParams = Except.ok req)
    (hsend : tr.send req = Except.ok ())
    (hrecv : tr.receive timeout = Except.ok reply)
    (hst : lookupParam (parseMessage reply CASE_SENSITIVE) (toL "status") = some st)
    (hid : lookupParam (parseMessage reply CASE_SENSITIVE) (toL "id") = some idv)
    (hne : idv ≠ op.uid) :
    resultCategory (performOperation true tr timeout op).1
      = some ErrorCategory.MethodFailed := by
  unfold performOperation
  rw [hbuild]
  simp only [Bool.not_true, Bool.false_eq_true, if_false, hvalid]
  rw [hsend, hrecv]
  simp only [hst, hid]
  rw [if_pos (by simp [hne])]
  rfl

/-- A stub transport whose `receive` yields a reply scoped to a different
UID than the request. -/
def mismatchTransport : Transport where
  send := fun _ => .ok ()
  receive := fun _ => .ok (toL "?id=OTHER&status=1")

/-- Witness for C4: an `update "S1"` call answered with `?id=OTHER&status=1`
fails with `MethodFailed` even though the reply says `status=1`. -/
theorem reply_id_mismatch_method_failed_witness :
    resultCategory
        (performOperation true mismatchTransport 100 (Operation.update (toL "S1"))).1
      = some ErrorCategory.MethodFailed :=
  reply_id_mismatch_method_failed mismatchTransport 100 (Operation.update (toL "S1"))
    (toL "?type=UPDATE&id=S1") (toL "?id=OTHER&status=1") (toL "OTHER") (toL "1")
    (by decide) rfl rfl rfl rfl rfl (by decide)

/-! ### Messenger (embedded from `vscp/src/io/messenger.cpp`)

The source selects the Arduino path (`ARDUINO_H` is defined in
`config.hpp`); the stdio path is also embedded for the `sendMessage`
claim.  The Arduino `receiveMessage` busy-waits until `UART1.available()`
is non-zero or `UART_TIMEOUT` milliseconds have elapsed; it is modelled by
an environment recording when (if ever) data becomes available on the UART
and what `readString` would then return. -/

/-- `UART_TIMEOUT` from `vscp/src/config.hpp` (milliseconds). -/
def UART_TIMEOUT : Nat := 100

/-- The observable UART input during one `receiveMessage` call:
`availAt = some a` means data first becomes available `a` ms after the call
starts (so `UART1.available() > 0` from then on), `none` means no data ever
arrives; `data` is what `UART1.readString()` returns once data is
available. -/
structure UartEnv where
  availAt : Option Nat
  data : List Char

/-- The string the Arduino `receiveMessage` returns when the wait ends with
no data available (`messenger.cpp` lines 43-53): the fixed timeout text
when `verbose > 0`, the empty string otherwise. -/
def timeoutFallback (verbose : Int) : List Char :=
  if verbose > 0 then toL "Timeout occurred while waiting for message."
  else []

/-- Whether the busy-wait of the Arduino `receiveMessage` ends with no data
available: no data ever arrives, or it arrives only after `UART_TIMEOUT`
ms have elapsed. -/
def timesOut (env : UartEnv) : Bool :=
  match env.availAt with
  | none => true
  | some a => decide (UART_TIMEOUT < a)

/-- Embedded from `messenger.cpp` (`ARDUINO_H` branch, lines 28-56):
`receiveMessage(int verbose, int timeout)` busy-waits while
`UART1.available() == 0 && (millis() - startTime) < UART_TIMEOUT`, then
returns `UART1.readString()` if data is available and the verbose-dependent
fallback string otherwise.  The first component is the returned string, the
second the number of milliseconds spent in the wait loop.  Note that the
loop bound is the compile-time constant `UART_TIMEOUT`, not the `timeout`
argument, and that `verbose` only selects the fallback text. -/
def receiveMessageArduino (verbose timeout : Int) (env : UartEnv) :
    List Char × Nat :=
  match env.availAt with
  | some a =>
    if a ≤ UART_TIMEOUT then (env.data, a)
    else (timeoutFallback verbose, UART_TIMEOUT)
  | none => (timeoutFallback verbose, UART_TIMEOUT)

/-- C2 counterexample: a call in which no data arrives within the timeout
returns the empty string when `verbose = 0` — byte-for-byte identical to a
genuine empty reply — not a distinguishable `Timeout` error value. -/
theorem receive_timeout_counterexample :
    (receiveMessageArduino 0 5000 ⟨none, toL "late-data"⟩).1 = [] ∧
    (receiveMessageArduino 0 5000 ⟨none, toL "late-data"⟩).1
      = (receiveMessageArduino 0 5000 ⟨some 0, []⟩).1 := by
  constructor
  · rfl
  · rfl

/-- C2 amended: on the Arduino path, a `receiveMessage` call whose wait ends
with no data available returns the fallback string — the fixed timeout text
when `verbose > 0` and the empty string otherwise — so with `verbose ≤ 0` a
timeout is not distinguishable from an empty reply. -/
theorem receive_timeout_returns_fallback (verbose timeout : Int)
    (env : UartEnv) (h : timesOut env = true) :
    (receiveMessageArduino verbose timeout env).1 = timeoutFallback verbose := by
  obtain ⟨availAt, data⟩ := env
  cases availAt with
  | none => rfl
  | some a =>
    simp only [timesOut, decide_eq_true_eq] at h
    simp only [receiveMessageArduino]
    rw [if_neg (by omega)]

/-- Witness for the amended C2. -/
theorem receive_timeout_returns_fallback_witness :
    timesOut ⟨none, []⟩ = true ∧
    (receiveMessageArduino 0 0 ⟨none, []⟩).1 = timeoutFallback 0 :=
  ⟨rfl, receive_timeout_returns_fallback 0 0 ⟨none, []⟩ rfl⟩

/-- C9: on the Arduino path, the wait performed by `receiveMessage` is
bounded by `UART_TIMEOUT` in every call, and the `verbose`/`timeout`
arguments never change how long the function waits for data. -/
theorem receive_wait_bounded_by_uart_timeout (v1 t1 v2 t2 : Int)
    (env : UartEnv) :
    (receiveMessageArduino v1 t1 env).2 = (receiveMessageArduino v2 t2 env).2 ∧
    (receiveMessageArduino v1 t1 env).2 ≤ UART_TIMEOUT := by
  obtain ⟨availAt, data⟩ := env
  cases availAt with
  | none => exact ⟨rfl, Nat.le_refl _⟩
  | some a =>
    simp only [receiveMessageArduino]
    by_cases h : a ≤ UART_TIMEOUT
    · rw [if_pos h, if_pos h]
      exact ⟨rfl, h⟩
    · rw [if_neg h, if_neg h]
      exact ⟨rfl, Nat.le_refl _⟩

/-- Embedded from `messenger.cpp` (`ARDUINO_H` branch, lines 20-26):
`sendMessage` writes the message with `UART1.println`, which transmits the
bytes of the message followed by a carriage return and a line feed
(`"\r\n"`, the documented Arduino `println` terminator). -/
def sendMessageArduino (message : List Char) : List Char :=
  message ++ toL "\r\n"

/-- Embedded from `messenger.cpp` (`STDIO_H` branch, lines 78-80):
`sendMessage` writes the message with `printf("%s\n", ...)`, i.e. the bytes
of the message followed by a single line feed. -/
def sendMessageStdio (message : List Char) : List Char :=
  message ++ toL "\n"

/-- C10 counterexample: on the Arduino path the transmitted bytes are not
the message plus a single trailing newline — `println` inserts a carriage
return before the line feed. -/
theorem send_framing_counterexample :
    sendMessageArduino (toL "hi") ≠ toL "hi" ++ toL "\n" := by
  decide

/-- C10 amended: `sendMessage` transmits the message followed by a line
terminator on both paths — `"\n"` on the stdio path and `"\r\n"` on the
Arduino path — so on both paths the sent bytes start with the message and
end with a line feed. -/
theorem send_appends_line_terminator (message : List Char) :
    sendMessageStdio message = message ++ toL "\n" ∧
    sendMessageArduino message = message ++ toL "\r\n" ∧
    (sendMessageStdio message).getLast? = some '\n' ∧
    (sendMessageArduino message).getLast? = some '\n' := by
  refine ⟨rfl, rfl, ?_, ?_⟩
  · unfold sendMessageStdio
    rw [List.getLast?_append]
    rfl
  · unfold sendMessageArduino
    rw [List.getLast?_append]
    rfl

/-! ### Exception library (embedded from `libraries/expt`)

`ErrorCode` is from `expt/src/exceptions/error_codes.hpp`; the `Exception`
class with its `flush`/`print` members is from
`expt/src/exceptions/exceptions.cpp`.  `print` performs two effects —
splashing (`splashMessage`) and logging (`logMessage`); the model returns
them as data: the optional splashed text and the logged text. -/

/-- `ErrorCode` from `expt/src/exceptions/error_codes.hpp`. -/
inductive ErrorCode where
  | VALUE_ERROR
  | VALUE_NOT_FOUND
  | INVALID_VALUE
  | WARNING_CODE
  | ERROR_CODE
  | CRITICAL_ERROR_CODE
  | NOT_FOUND
  | NOT_DEFINED_ERROR
  | TIMEOUT
deriving DecidableEq

/-- The `Exception` class of `expt/src/exceptions/exceptions.hpp`: an error
code, a name, a message, a source, and an optional owned inner exception
chain. -/
inductive ExptException where
  | mk (Code : ErrorCode) (Name : List Char) (Message : List Char)
      (Source : List Char) (inner : Option ExptException)

/-- The error code of an exception. -/
def ExptException.code : ExptException → ErrorCode
  | .mk c _ _ _ _ => c

/-- `level` copies of the `" \t"` indentation written by the loop at the
start of `Exception::flush`. -/
def indentOf : Nat → List Char
  | 0 => []
  | n + 1 => indentOf n ++ toL " \t"

/-- Embedded from `Exception::flush` (`exceptions.cpp` lines 59-69): the
indentation for `level`, then `"(Source) Exception catch: Message\n"`, then
the inner exception flushed at `level + 1`. -/
def ExptException.flush : ExptException → Nat → List Char
  | .mk _ _ msg src inner, level =>
    let head := indentOf level ++ toL "(" ++ src ++ toL ") Exception catch: "
        ++ msg ++ toL "\n"
    match inner with
    | none => head
    | some i => head ++ ExptException.flush i (level + 1)

/-- Embedded from `Exception::print` (`exceptions.cpp` lines 71-79): the
flushed message is splashed (`splashMessage`) only when the code is
`CRITICAL_ERROR_CODE`, and is always logged (`logMessage`).  The result is
(splashed text if any, logged text). -/
def ExptException.printEffects (e : ExptException) :
    Option (List Char) × List Char :=
  (if e.code = ErrorCode.CRITICAL_ERROR_CODE then some (e.flush 0) else none,
   e.flush 0)

/-- `ProtocolNotInitializedException` from
`vscp/src/exceptions/protocol_exceptions.hpp` (lines 75-76), built with its
defaulted error code: every constructor of that class defaults `code` to
`ErrorCode::CRITICAL_ERROR_CODE`. -/
def protocolNotInitializedException (source message : List Char) : ExptException :=
  .mk ErrorCode.CRITICAL_ERROR_CODE (toL "ProtocolNotInitializedException")
    message source none

/-- C8: `print` splashes a notification in addition to logging exactly when
the error's code is `CRITICAL_ERROR_CODE` (every error is always logged),
and a `ProtocolNotInitializedException` built with its defaulted code
carries `CRITICAL_ERROR_CODE`, so critical-severity errors are
distinguishable by the caller. -/
theorem print_splashes_iff_critical :
    (∀ e : ExptException,
      (e.printEffects.1.isSome ↔ e.code = ErrorCode.CRITICAL_ERROR_CODE) ∧
      e.printEffects.2 = e.flush 0) ∧
    (∀ source message : List Char,
      (protocolNotInitializedException source message).code
        = ErrorCode.CRITICAL_ERROR_CODE) := by
  constructor
  · intro e
    constructor
    · unfold ExptException.printEffects
      by_cases h : e.code = ErrorCode.CRITICAL_ERROR_CODE
      · rw [if_pos h]
        simp [h]
      · rw [if_neg h]
        simp [h]
    · rfl
  · intro source message
    rfl
